import Mathlib

/-!
Verification development for the tinkoff_invest_bot repository.

Shallow embedding conventions:
* Exact decimal amounts (Python Decimal, pandas numeric columns) are modelled
  as rationals.
* A pandas column value that can be NaN (after a left merge with no match) is
  modelled as an Option.
* Code paths that raise a Python exception are modelled by returning none
  (for whole-computation failure) or a dedicated error constructor.
* Each definition carries a comment naming the source function it embeds.
-/

/-! ### Decimal string parsing (Python float()/Decimal() on simple literals)

Both utils.cast_money (Decimal(str)) and fetchers.validate_data
(astype("float")) parse plain decimal literals such as "12.34".  We model the
common plain-literal subset: an optional sign, an integer part and an optional
fractional part, at least one digit overall, no exponent and no special
values. -/

/-- Numeric value of a list of decimal digit characters, most significant first. -/
def digits_to_nat (l : List Char) : ℕ :=
  l.foldl (fun a c => a * 10 + (c.toNat - 48)) 0

/-- Sign, integer digits, fractional digits and fractional length of a parsed
decimal literal.  Kept in integer form so that concrete parses evaluate by
kernel reduction. -/
structure DecParts where
  sign : ℤ
  int_part : ℕ
  frac_part : ℕ
  frac_len : ℕ
deriving DecidableEq

/-- Splits a plain decimal literal into its parts; none when the string is not
a plain decimal literal (this is the failure case of float()/Decimal()). -/
def decimal_parts (s : String) : Option DecParts :=
  let cs := s.toList
  let signed : ℤ × List Char :=
    match cs with
    | '-' :: rest => (-1, rest)
    | '+' :: rest => (1, rest)
    | _ => (1, cs)
  let ip := signed.2.takeWhile Char.isDigit
  let rest := signed.2.dropWhile Char.isDigit
  match rest with
  | [] => if ip.isEmpty then none else some ⟨signed.1, digits_to_nat ip, 0, 0⟩
  | '.' :: frac =>
    if frac.all Char.isDigit && !(ip.isEmpty && frac.isEmpty) then
      some ⟨signed.1, digits_to_nat ip, digits_to_nat frac, frac.length⟩
    else none
  | _ => none

/-- Rational value denoted by the parts of a decimal literal. -/
def parts_value (p : DecParts) : ℚ :=
  (p.sign : ℚ) * ((p.int_part : ℚ) + (p.frac_part : ℚ) / (10 : ℚ) ^ p.frac_len)

/-- Parses a plain decimal literal to its exact rational value; none when the
string does not parse (float()/Decimal() raise). -/
def parse_decimal_string (s : String) : Option ℚ :=
  (decimal_parts s).map parts_value

/-! ### Money normalizer: utils.py, cast_money (lines 33-39)

The source runs Decimal(v.units) and Decimal(v.nano) inside a
try/except (TypeError, ValueError) block and re-raises those two exception
classes as ValueError("Invalid money format").  Reading a missing attribute
raises AttributeError, and Decimal of a non-numeric string raises
decimal.InvalidOperation (a subclass of ArithmeticError); neither is caught
by that except clause, so they propagate unchanged. -/

/-- Python value supplied as the units or nano field of an API money value.
We model the cases relevant to cast_money: an integer, a string, and None. -/
inductive PyVal where
  | int (n : ℤ)
  | str (s : String)
  | pynone
deriving DecidableEq

/-- Outcome classes of cast_money beyond a successful Decimal. -/
inductive MoneyError where
  | attribute_error
  | invalid_operation
  | invalid_money_format
deriving DecidableEq

/-- Decimal(field) for one field of the money value: a missing attribute
raises AttributeError; Decimal(None) raises TypeError, which cast_money maps
to the invalid-money ValueError; Decimal of a non-numeric string raises
decimal.InvalidOperation, which cast_money does not catch. -/
def decimal_of_field : Option PyVal → Except MoneyError ℚ
  | none => .error .attribute_error
  | some (.int n) => .ok (n : ℚ)
  | some (.str s) =>
    match parse_decimal_string s with
    | some q => .ok q
    | none => .error .invalid_operation
  | some .pynone => .error .invalid_money_format

/-- A two-field API money value; none models an absent attribute. -/
structure MoneyValue where
  units : Option PyVal
  nano : Option PyVal

/-- Embeds utils.cast_money: units + nano / 10^9 as an exact decimal, with
the failure modes of decimal_of_field (units is evaluated first). -/
def cast_money (v : MoneyValue) : Except MoneyError ℚ :=
  match decimal_of_field v.units with
  | .error e => .error e
  | .ok u =>
    match decimal_of_field v.nano with
    | .error e => .error e
    | .ok n => .ok (u + n / 1000000000)

/-! ### Benchmark weight table builder: data/fetchers.py, validate_data
(lines 152-182)

We embed validate_data from the point where the raw index table has been
trimmed by the iloc slice of lines 161-165: the trimmed table is a list of
rows each carrying the display-name column and the weight-string column.  The
name-to-ticker table is a list of (name, ticker) rows.  The pd.merge of lines
168-173 is a left join on the name column: every left row is kept, a row with
several right matches is duplicated per match, and a row with no right match
keeps a NaN (none) ticker.  Lines 178-180 strip the last character of every
weight string and convert the whole column with astype("float"), which raises
for the whole batch if any single value fails to parse. -/

/-- One row of the trimmed benchmark index table. -/
structure TrimmedIndexRow where
  name : String
  weight_str : String
deriving DecidableEq

/-- One row of the name-to-ticker table. -/
structure TickerRow where
  name : String
  ticker : String
deriving DecidableEq

/-- Row expansion of a pandas left merge: all matches of the key, or a single
unmatched (none) row when there is no match. -/
def left_matches {α : Type} (p : α → Bool) (xs : List α) : List (Option α) :=
  match xs.filter p with
  | [] => [none]
  | ms => ms.map some

/-- The pd.merge of validate_data lines 168-173: left join of the trimmed
index table with the ticker table on the display-name column. -/
def left_join_on_name (idx : List TrimmedIndexRow) (tk : List TickerRow) :
    List (Option String × String) :=
  idx.flatMap fun r =>
    (left_matches (fun t => t.name == r.name) tk).map fun t? =>
      (t?.map TickerRow.ticker, r.weight_str)

/-- The x[:-1] slice applied to each weight string (drops the last character,
whatever it is). -/
def strip_last_char (s : String) : String := s.dropRight 1

/-- The weight column conversion of lines 178-180: strip the last character
of each weight string and parse; astype("float") is all-or-nothing, so a
single unparseable value fails the whole batch (modelled as none). -/
def parse_weight_column (l : List (Option String × String)) :
    Option (List (Option String × ℚ)) :=
  match l with
  | [] => some []
  | x :: xs =>
    match parse_decimal_string (strip_last_char x.2), parse_weight_column xs with
    | some q, some rest => some ((x.1, q) :: rest)
    | _, _ => none

/-- Embeds validate_data (from the post-trim table onward): left join on the
display name, keep the ticker and weight columns, parse the weight strings. -/
def validate_data (idx : List TrimmedIndexRow) (tk : List TickerRow) :
    Option (List (Option String × ℚ)) :=
  parse_weight_column (left_join_on_name idx tk)

/-! ### Brokerage client: api/client_service.py

get_shares_info (lines 39-58), get_positions_info (lines 60-84) and
get_last_prices_info (lines 86-120) wrap the API call in try/except and
return an empty DataFrame when the call fails; the empty DataFrame has no
columns, which matters downstream.  byu_figi (lines 156-185) posts a market
buy order whose quantity argument receives the raw lot count it is given.
The private trading_schedules helper (lines 187-216) returns the collected
exchange schedules, or an empty list when the call fails. -/

/-- Result of one collaborator API call: the fetched items, or a failure
(network or API error) caught at the point of call. -/
inductive ApiResult (α : Type) where
  | ok (items : List α)
  | error

/-- One instrument of the share catalog: ticker, figi and lot size
(get_shares_info keeps exactly these three columns). -/
structure Share where
  ticker : String
  figi : String
  lot : ℤ
deriving DecidableEq

/-- One account position row: figi and share balance (get_positions_info). -/
structure Position where
  figi : String
  balance : ℚ
deriving DecidableEq

/-- One last-price row: figi and price (get_last_prices_info). -/
structure PriceQuote where
  figi : String
  price : ℚ
deriving DecidableEq

/-- Embeds get_shares_info: an API failure degrades to an empty table. -/
def get_shares_info (r : ApiResult Share) : List Share :=
  match r with
  | .ok l => l
  | .error => []

/-- Embeds get_positions_info: an API failure degrades to an empty table. -/
def get_positions_info (r : ApiResult Position) : List Position :=
  match r with
  | .ok l => l
  | .error => []

/-- Embeds get_last_prices_info: an API failure degrades to an empty table.
The ValueError guard on an empty figi input list is never reached from
collect_portfolio_information, because reading the figi column of an empty
shares table already raises; that raise is modelled in collect_information. -/
def get_last_prices_info (r : ApiResult PriceQuote) : List PriceQuote :=
  match r with
  | .ok l => l
  | .error => []

/-- A market buy order as posted by byu_figi: the quantity argument of
post_order receives the lot count passed to byu_figi unchanged. -/
structure BuyOrder where
  figi : String
  quantity : ℤ
deriving DecidableEq

/-- Embeds byu_figi (client_service.py lines 156-185). -/
def byu_figi (figi : String) (lot : ℤ) : BuyOrder :=
  { figi := figi, quantity := lot }

/-- One day entry of a trading schedule (dates and times as abstract integer
stamps; only equality of dates and ordering of times are used). -/
structure ScheduleDay where
  date : ℤ
  is_trading_day : Bool
  start_time : ℤ
  end_time : ℤ
deriving DecidableEq

/-- One exchange entry of a trading-schedules response. -/
structure ExchangeSchedule where
  days : List ScheduleDay
deriving DecidableEq

/-- Embeds the private trading_schedules helper (lines 187-216): an API
failure degrades to an empty list of exchange schedules. -/
def trading_schedules (r : ApiResult ExchangeSchedule) : List ExchangeSchedule :=
  match r with
  | .ok l => l
  | .error => []

/-- Embeds moex_today_trading_schedule (lines 218-240): scan the schedules in
order and return the first day entry whose date is today; when no entry
matches, return (False, now, now). -/
def moex_today_trading_schedule (scheds : List ExchangeSchedule)
    (today : ℤ) (now : ℤ) : Bool × ℤ × ℤ :=
  match (scheds.flatMap ExchangeSchedule.days).find? (fun d => d.date == today) with
  | some d => (d.is_trading_day, d.start_time, d.end_time)
  | none => (false, now, now)

/-! ### Rebalancing engine: strategy/strategies.py

collect_information (lines 96-128) left-merges the validated benchmark
weight table with the share catalog on ticker, then with positions and last
prices on figi, and fills missing balances with zero.  An empty DataFrame
returned by a failed fetch has no columns: reading shares["figi"]
(line 92) or merging on "figi" with a column-less frame raises KeyError, and
merging a None benchmark table raises; those raises are modelled as none.

get_portfolio (lines 130-169) adds the computed columns lot_price,
portfolio_rubles_volume, portfolio_weight_volume and ideal_portfolio.  The
weight-by-volume column divides each position value by
portfolio_rubles_volume.sum() + money; with Decimal arithmetic a zero
divisor raises for every row, so a pass over a nonempty table with a zero
portfolio base fails.

search_shares_to_buy (lines 171-214) floors ideal_portfolio minus
portfolio_rubles_volume into to_buy_rubles (math.floor raises on a NaN,
i.e. on any row with an unknown price), computes the to_buy flag, and maps
figi to to_buy_rubles // lot_price over the flagged rows (a zero lot price
raises there). -/

/-- One row of the validated benchmark weight table with a matched ticker
(rows of collect_mmvb_weights whose ticker is known). -/
structure WeightRow where
  ticker : String
  weight : ℚ
deriving DecidableEq

/-- One row of the merged portfolio table of collect_information.  The figi
and lot columns come from the same merge with the share catalog and are
missing together, so they are bundled as one optional Share; balance is
already filled with zero; price is missing when the figi had no quote or the
share merge found no match. -/
structure InfoRow where
  ticker : String
  weight : ℚ
  share : Option Share
  balance : ℚ
  price : Option ℚ
deriving DecidableEq

/-- The row set produced by the three chained left merges of
collect_information lines 122-127, with balance filled by fillna(0). -/
def collect_rows (ws : List WeightRow) (shares : List Share)
    (positions : List Position) (prices : List PriceQuote) : List InfoRow :=
  ws.flatMap fun w =>
    (left_matches (fun s => s.ticker == w.ticker) shares).flatMap fun s? =>
      (left_matches
          (fun p => match s? with
            | some s => p.figi == s.figi
            | none => false) positions).flatMap fun p? =>
        (left_matches
            (fun q => match s? with
              | some s => q.figi == s.figi
              | none => false) prices).map fun q? =>
          { ticker := w.ticker, weight := w.weight, share := s?,
            balance := (p?.map Position.balance).getD 0,
            price := q?.map PriceQuote.price }

/-- Embeds collect_information (with collect_portfolio_information inlined):
none models the KeyError raised when the benchmark table is None or when any
of the three fetched tables is empty (an empty DataFrame has no ticker, figi
or price columns to read or merge on). -/
def collect_information (weights : Option (List WeightRow)) (shares : List Share)
    (positions : List Position) (prices : List PriceQuote) : Option (List InfoRow) :=
  match weights with
  | none => none
  | some ws =>
    if shares.isEmpty || positions.isEmpty || prices.isEmpty then none
    else some (collect_rows ws shares positions prices)

/-- The lot_price column of get_portfolio line 155: price times lot size,
NaN (none) when either factor is missing. -/
def lot_price (r : InfoRow) : Option ℚ :=
  match r.price, r.share with
  | some p, some s => some (p * (s.lot : ℚ))
  | _, _ => none

/-- The portfolio_rubles_volume column of get_portfolio line 156: price
times balance, NaN (none) when the price is missing. -/
def portfolio_rubles_volume (r : InfoRow) : Option ℚ :=
  r.price.map (fun p => p * r.balance)

/-- The sum portfolio_rubles_volume.sum() of get_portfolio line 161: pandas
sum skips NaN entries, so a missing value contributes zero. -/
def rubles_volume_sum (rows : List InfoRow) : ℚ :=
  (rows.map (fun r => (portfolio_rubles_volume r).getD 0)).sum

/-- The fixed denominator portfolio_rubles_volume.sum() + self.money used by
get_portfolio lines 159-167, computed once per pass. -/
def portfolio_base (rows : List InfoRow) (money : ℚ) : ℚ :=
  rubles_volume_sum rows + money

/-- The portfolio_weight_volume column of get_portfolio lines 159-162: the
row value divided by the portfolio base times 100.  A missing position value
stays missing; a zero base makes the Decimal division raise, modelled as
none (the enclosing pass fails, see search_shares_to_buy). -/
def portfolio_weight_volume (rows : List InfoRow) (money : ℚ) (r : InfoRow) :
    Option ℚ :=
  match portfolio_rubles_volume r with
  | none => none
  | some pv =>
    if portfolio_base rows money = 0 then none
    else some (pv / portfolio_base rows money * 100)

/-- The ideal_portfolio column of get_portfolio lines 163-167. -/
def ideal_portfolio (rows : List InfoRow) (money : ℚ) (r : InfoRow) : ℚ :=
  r.weight / 100 * portfolio_base rows money

/-- The to_buy_rubles column of search_shares_to_buy lines 192-195:
math.floor of ideal_portfolio minus portfolio_rubles_volume; none when the
position value is missing (math.floor raises on NaN, failing the pass). -/
def to_buy_rubles (rows : List InfoRow) (money : ℚ) (r : InfoRow) : Option ℤ :=
  (portfolio_rubles_volume r).map (fun pv => ⌊ideal_portfolio rows money r - pv⌋)

/-- Pandas comparison of a possibly-missing integer column with zero: a NaN
compares false. -/
def opt_pos (a : Option ℤ) : Bool :=
  match a with
  | some d => decide (0 < d)
  | none => false

/-- Pandas comparison of a possibly-missing column with a scalar: a NaN
compares false. -/
def opt_le (a : Option ℚ) (b : ℚ) : Bool :=
  match a with
  | some x => decide (x ≤ b)
  | none => false

/-- Pandas comparison of two columns where either side can be missing: a NaN
compares false. -/
def opt_lt_cast (a : Option ℚ) (b : Option ℤ) : Bool :=
  match a, b with
  | some x, some d => decide (x < (d : ℚ))
  | _, _ => false

/-- The to_buy flag of search_shares_to_buy lines 196-200:
to_buy_rubles > 0 and lot_price <= money and to_buy_rubles > lot_price. -/
def to_buy (rows : List InfoRow) (money : ℚ) (r : InfoRow) : Bool :=
  opt_pos (to_buy_rubles rows money r) && opt_le (lot_price r) money
    && opt_lt_cast (lot_price r) (to_buy_rubles rows money r)

/-- The buy-plan contribution of one row, lines 202-212: a flagged row maps
its figi to to_buy_rubles floor-divided by lot_price; an unflagged row
contributes nothing. -/
def row_plan_entry (rows : List InfoRow) (money : ℚ) (r : InfoRow) :
    Option (String × ℤ) :=
  if to_buy rows money r then
    match r.share, to_buy_rubles rows money r, lot_price r with
    | some s, some d, some lp => some (s.figi, ⌊(d : ℚ) / lp⌋)
    | _, _, _ => none
  else none

/-- Embeds search_shares_to_buy lines 171-214 (with get_portfolio inlined).
The pass fails (none) when any row has a missing position value or the
portfolio base is zero (the weight-by-volume division or math.floor raises
on that row), or when a flagged row has a zero lot price (the floor division
of line 205-207 raises).  Otherwise the pass returns the figi-to-lots
mapping over the flagged rows. -/
def search_shares_to_buy (rows : List InfoRow) (money : ℚ) :
    Option (List (String × ℤ)) :=
  if rows.any (fun r =>
      (portfolio_rubles_volume r).isNone || decide (portfolio_base rows money = 0)) then
    none
  else if rows.any (fun r => to_buy rows money r && decide (lot_price r = some 0)) then
    none
  else
    some (rows.filterMap (row_plan_entry rows money))

/-- One full computation pass: collect_information then search_shares_to_buy
on the frozen fetched inputs and the cash scalar. -/
def strategy_pass (weights : Option (List WeightRow)) (shares : List Share)
    (positions : List Position) (prices : List PriceQuote) (money : ℚ) :
    Option (List (String × ℤ)) :=
  (collect_information weights shares positions prices).bind
    (fun rows => search_shares_to_buy rows money)

/-- The buy loop of MMVBStrategy.run lines 260-264: one order per plan
entry, quantity as stored in the plan. -/
def run_buy_orders (plan : List (String × ℤ)) : List BuyOrder :=
  plan.map (fun e => byu_figi e.1 e.2)

/-- The guard of the trading branch of run line 252:
is_trading_day and start_time < now < end_time. -/
def trading_branch_active (sched : Bool × ℤ × ℤ) (now : ℤ) : Bool :=
  sched.1 && decide (sched.2.1 < now) && decide (now < sched.2.2)

/-- Orders issued in one wake-up of the run loop lines 248-264: the buy loop
runs only when the trading branch guard holds. -/
def pass_orders (api : ApiResult ExchangeSchedule) (today now : ℤ)
    (plan : List (String × ℤ)) : List BuyOrder :=
  if trading_branch_active
      (moex_today_trading_schedule (trading_schedules api) today now) now then
    run_buy_orders plan
  else []

/-- The frozen inputs of one computation pass: the fetched benchmark table
and the three collaborator responses. -/
structure FrozenInputs where
  index_weights : Option (List WeightRow)
  shares_api : ApiResult Share
  positions_api : ApiResult Position
  prices_api : ApiResult PriceQuote

/-- The mutable instance fields of MMVBStrategy that one pass reads or
writes: money is read by search_shares_to_buy; the other fields are
overwritten on every pass (postions keeps the spelling of the source). -/
structure StrategyState where
  money : ℚ
  postions : Option (List Position)
  shares : Option (List Share)
  prices : Option (List PriceQuote)
  portfolio : Option (List InfoRow)
  adjusted_tickers : Option (List (String × ℤ))

/-- Embeds one call of search_shares_to_buy at the object level: the pass
reads the money field, recomputes every table from the frozen inputs, and
overwrites the other instance fields with the intermediate results. -/
def search_shares_to_buy_pass (inp : FrozenInputs) (st : StrategyState) :
    StrategyState × Option (List (String × ℤ)) :=
  let sh := get_shares_info inp.shares_api
  let ps := get_positions_info inp.positions_api
  let qs := get_last_prices_info inp.prices_api
  let rows? := collect_information inp.index_weights sh ps qs
  let plan? := rows?.bind (fun rows => search_shares_to_buy rows st.money)
  ({ st with postions := some ps, shares := some sh, prices := some qs,
             portfolio := rows?, adjusted_tickers := plan? }, plan?)

/-- Buy-eligibility exactly as the specification words it: the deficit is
positive, the lot price is known and within the available cash, and the
deficit strictly exceeds the lot price. -/
def spec_buy_eligible (rows : List InfoRow) (money : ℚ) (r : InfoRow) : Prop :=
  ∃ d lp, to_buy_rubles rows money r = some d ∧ lot_price r = some lp ∧
    0 < d ∧ lp ≤ money ∧ lp < (d : ℚ)

/-! ### Helper lemmas -/

/-- Every left row yields at least one joined element. -/
lemma left_matches_ne_nil {α : Type} (p : α → Bool) (xs : List α) :
    ∃ y, y ∈ left_matches p xs := by
  unfold left_matches
  cases h : xs.filter p with
  | nil => exact ⟨none, by simp⟩
  | cons a l => exact ⟨some a, by simp⟩

/-- With no match, the single joined element is the unmatched one. -/
lemma left_matches_of_no_match {α : Type} (p : α → Bool) (xs : List α)
    (h : xs.filter p = []) : left_matches p xs = [none] := by
  unfold left_matches
  rw [h]

/-- An index row with no ticker match contributes a none-ticker element to
the joined table. -/
lemma left_join_unmatched_mem (idx : List TrimmedIndexRow) (tk : List TickerRow)
    (r : TrimmedIndexRow) (hr : r ∈ idx)
    (hnm : tk.filter (fun t => t.name == r.name) = []) :
    ((none : Option String), r.weight_str) ∈ left_join_on_name idx tk := by
  unfold left_join_on_name
  refine List.mem_flatMap.mpr ⟨r, hr, ?_⟩
  rw [left_matches_of_no_match _ _ hnm]
  simp

/-- Every index row contributes at least one joined element carrying its
weight string. -/
lemma left_join_mem_of_mem (idx : List TrimmedIndexRow) (tk : List TickerRow)
    (r : TrimmedIndexRow) (hr : r ∈ idx) :
    ∃ t, (t, r.weight_str) ∈ left_join_on_name idx tk := by
  obtain ⟨y, hy⟩ := left_matches_ne_nil (fun t => t.name == r.name) tk
  refine ⟨y.map TickerRow.ticker, ?_⟩
  unfold left_join_on_name
  refine List.mem_flatMap.mpr ⟨r, hr, ?_⟩
  exact List.mem_map.mpr ⟨y, hy, rfl⟩

/-- One unparseable weight fails the whole column conversion. -/
lemma parse_weight_column_none (l : List (Option String × String))
    (x : Option String × String) (hx : x ∈ l)
    (hp : parse_decimal_string (strip_last_char x.2) = none) :
    parse_weight_column l = none := by
  induction l with
  | nil => cases hx
  | cons a l ih =>
    rcases List.mem_cons.mp hx with hx | hx
    · subst hx
      simp [parse_weight_column, hp]
    · unfold parse_weight_column
      rw [ih hx]
      cases parse_decimal_string (strip_last_char a.2) <;> rfl

/-- A successful column conversion keeps every joined element, parsed. -/
lemma parse_weight_column_mem (l : List (Option String × String))
    (out : List (Option String × ℚ)) (h : parse_weight_column l = some out)
    (x : Option String × String) (hx : x ∈ l) :
    ∃ q, parse_decimal_string (strip_last_char x.2) = some q ∧ (x.1, q) ∈ out := by
  induction l generalizing out with
  | nil => cases hx
  | cons a l ih =>
    unfold parse_weight_column at h
    cases ha : parse_decimal_string (strip_last_char a.2) with
    | none => rw [ha] at h; exact absurd h (by simp)
    | some q =>
      rw [ha] at h
      cases hrest : parse_weight_column l with
      | none => rw [hrest] at h; exact absurd h (by simp)
      | some rest =>
        rw [hrest] at h
        simp only [Option.some.injEq] at h
        rcases List.mem_cons.mp hx with hx | hx
        · subst hx
          exact ⟨q, ha, by rw [← h]; simp⟩
        · obtain ⟨q', hq', hmem⟩ := ih rest hrest hx
          exact ⟨q', hq', by rw [← h]; simp [hmem]⟩

/-- Concrete parse facts used by the weight-table theorems. -/
lemma parse_1234_eval :
    parse_decimal_string (strip_last_char "12.34%") = some (1234 / 100) := by
  have h : decimal_parts (strip_last_char "12.34%") = some ⟨1, 12, 34, 2⟩ := by decide
  simp [parse_decimal_string, h, parts_value]
  norm_num

/-- A one-row weight table whose display name has no ticker match validates
to a single row with a null ticker. -/
lemma vd_unmatched_eval :
    validate_data [⟨"A", "10%"⟩] [] = some [(none, 10)] := by
  have h : decimal_parts (strip_last_char "10%") = some ⟨1, 10, 0, 0⟩ := by decide
  simp [validate_data, left_join_on_name, left_matches, parse_weight_column,
    parse_decimal_string, h, parts_value]

/-! ### Claim C5 -/

/-- Claim C5, counterexample: with one malformed weight among two rows, the
whole batch fails (none); the well-formed row alone would have validated, so
the failure is not a single-row drop. -/
theorem malformed_weight_counterexample :
    validate_data [⟨"A", "12.34%"⟩, ⟨"B", "oops%"⟩] [⟨"A", "AAA"⟩, ⟨"B", "BBB"⟩]
        = none ∧
    validate_data [⟨"A", "12.34%"⟩] [⟨"A", "AAA"⟩]
        = some [(some "AAA", 1234 / 100)] := by
  constructor
  · have hj : left_join_on_name [⟨"A", "12.34%"⟩, ⟨"B", "oops%"⟩]
        [⟨"A", "AAA"⟩, ⟨"B", "BBB"⟩]
        = [(some "AAA", "12.34%"), (some "BBB", "oops%")] := by decide
    have hp : parse_decimal_string (strip_last_char "oops%") = none := by decide
    unfold validate_data
    rw [hj]
    exact parse_weight_column_none _ (some "BBB", "oops%") (by simp) hp
  · have hj : left_join_on_name [⟨"A", "12.34%"⟩] [⟨"A", "AAA"⟩]
        = [(some "AAA", "12.34%")] := by decide
    unfold validate_data
    rw [hj]
    simp [parse_weight_column, parse_1234_eval]

/-- Claim C5 as amended: each weight string has its last character stripped
and is parsed as a decimal, so 12.34 percent parses to 12.34; but the column
conversion is all-or-nothing: one unparseable weight in any row fails the
whole batch, rather than dropping only that row. -/
theorem weight_batch_all_or_nothing (idx : List TrimmedIndexRow)
    (tk : List TickerRow)
    (h : ∃ r ∈ idx, parse_decimal_string (strip_last_char r.weight_str) = none) :
    validate_data idx tk = none ∧
    parse_decimal_string (strip_last_char "12.34%") = some (1234 / 100) := by
  obtain ⟨r, hr, hp⟩ := h
  refine ⟨?_, parse_1234_eval⟩
  obtain ⟨t, ht⟩ := left_join_mem_of_mem idx tk r hr
  exact parse_weight_column_none _ (t, r.weight_str) ht hp

/-- Witness for weight_batch_all_or_nothing at a concrete malformed batch. -/
theorem weight_batch_all_or_nothing_witness :
    validate_data [⟨"B", "oops%"⟩] [] = none ∧
    parse_decimal_string (strip_last_char "12.34%") = some (1234 / 100) :=
  weight_batch_all_or_nothing [⟨"B", "oops%"⟩] []
    ⟨⟨"B", "oops%"⟩, by simp, by decide⟩

/-! ### Claim C6 -/

/-- Claim C6, counterexample: a row whose display name has no ticker match
is kept in the final weight table with a null ticker, so the output is not
restricted to ticker-matched rows. -/
theorem unmatched_row_counterexample :
    validate_data [⟨"A", "10%"⟩] [] = some [(none, 10)] ∧
    validate_data [⟨"A", "10%"⟩] [] ≠ some [] := by
  refine ⟨vd_unmatched_eval, ?_⟩
  rw [vd_unmatched_eval]
  simp

/-- Claim C6 as amended: after the left join on display name, a row with no
ticker match is retained in the final weight table with a null ticker (it is
not dropped), and the missing match does not by itself error the batch. -/
theorem unmatched_rows_retained (idx : List TrimmedIndexRow)
    (tk : List TickerRow) (out : List (Option String × ℚ))
    (h : validate_data idx tk = some out) (r : TrimmedIndexRow) (hr : r ∈ idx)
    (hnm : tk.filter (fun t => t.name == r.name) = []) :
    ∃ q, parse_decimal_string (strip_last_char r.weight_str) = some q ∧
      ((none : Option String), q) ∈ out := by
  have hmem := left_join_unmatched_mem idx tk r hr hnm
  exact parse_weight_column_mem _ out h (none, r.weight_str) hmem

/-- Witness for unmatched_rows_retained on a concrete unmatched row. -/
theorem unmatched_rows_retained_witness :
    ∃ q, parse_decimal_string (strip_last_char "10%") = some q ∧
      ((none : Option String), q) ∈ [((none : Option String), (10 : ℚ))] :=
  unmatched_rows_retained [⟨"A", "10%"⟩] [] [(none, 10)] vd_unmatched_eval
    ⟨"A", "10%"⟩ (by simp) (by simp)

/-! ### Claim C7 -/

/-- Claim C7, counterexample: a non-numeric string field makes cast_money
fail with decimal.InvalidOperation and an absent field makes it fail with
AttributeError; neither outcome is the InvalidMonetaryValue error, which the
except clause produces only for TypeError/ValueError inputs such as None. -/
theorem cast_money_taxonomy_counterexample :
    cast_money ⟨some (.str "abc"), some (.int 0)⟩ = .error .invalid_operation ∧
    cast_money ⟨none, some (.int 0)⟩ = .error .attribute_error ∧
    MoneyError.invalid_operation ≠ MoneyError.invalid_money_format ∧
    MoneyError.attribute_error ≠ MoneyError.invalid_money_format := by
  have hp : parse_decimal_string "abc" = none := by decide
  refine ⟨?_, ?_, by decide, by decide⟩
  · simp [cast_money, decimal_of_field, hp]
  · simp [cast_money, decimal_of_field]

/-- Claim C7 as amended: for numeric fields cast_money returns
units + nano / 10^9 exactly (so 1 and 500000000 give 1.5, and 0 and 0 give
0) and has no side effects; a None field fails with the
InvalidMonetaryValue error, but an absent field fails with AttributeError
and a non-numeric string field fails with decimal.InvalidOperation, neither
of which is mapped to InvalidMonetaryValue. -/
theorem cast_money_contract (u n : ℤ) :
    cast_money ⟨some (.int u), some (.int n)⟩
        = .ok ((u : ℚ) + (n : ℚ) / 1000000000) ∧
    cast_money ⟨some (.int 1), some (.int 500000000)⟩ = .ok (3 / 2) ∧
    cast_money ⟨some (.int 0), some (.int 0)⟩ = .ok 0 ∧
    cast_money ⟨some .pynone, some (.int 0)⟩ = .error .invalid_money_format ∧
    cast_money ⟨none, some (.int 0)⟩ = .error .attribute_error ∧
    ∀ s : String, parse_decimal_string s = none →
      cast_money ⟨some (.str s), some (.int 0)⟩ = .error .invalid_operation := by
  refine ⟨by simp [cast_money, decimal_of_field], ?_, ?_, ?_, ?_, ?_⟩
  · simp [cast_money, decimal_of_field]
    norm_num
  · simp [cast_money, decimal_of_field]
  · simp [cast_money, decimal_of_field]
  · simp [cast_money, decimal_of_field]
  · intro s hs
    simp [cast_money, decimal_of_field, hs]

/-- Witness for cast_money_contract, discharging the string hypothesis at a
concrete non-numeric string. -/
theorem cast_money_contract_witness :
    cast_money ⟨some (.int 1), some (.int 500000000)⟩ = .ok (3 / 2) ∧
    cast_money ⟨some (.str "abc"), some (.int 0)⟩ = .error .invalid_operation :=
  ⟨(cast_money_contract 1 500000000).2.1,
    (cast_money_contract 1 500000000).2.2.2.2.2 "abc" (by decide)⟩

/-- The to_buy flag of the code agrees with the eligibility conditions as
the specification words them. -/
lemma to_buy_iff (rows : List InfoRow) (money : ℚ) (r : InfoRow) :
    to_buy rows money r = true ↔ spec_buy_eligible rows money r := by
  unfold to_buy spec_buy_eligible
  cases hd : to_buy_rubles rows money r <;> cases hl : lot_price r <;>
    simp [opt_pos, opt_le, opt_lt_cast]
  tauto

/-- A known lot price decomposes into a known price and a matched share. -/
lemma lot_price_some (r : InfoRow) (lp : ℚ) (h : lot_price r = some lp) :
    ∃ p s, r.price = some p ∧ r.share = some s ∧ lp = p * (s.lot : ℚ) := by
  unfold lot_price at h
  cases hp : r.price <;> cases hs : r.share <;> rw [hp, hs] at h <;> simp at h
  exact ⟨_, _, rfl, rfl, h.symm⟩

/-- Characterization of a successful search_shares_to_buy pass. -/
lemma search_some_iff (rows : List InfoRow) (money : ℚ)
    (plan : List (String × ℤ)) :
    search_shares_to_buy rows money = some plan ↔
      (rows.any (fun r =>
        (portfolio_rubles_volume r).isNone
          || decide (portfolio_base rows money = 0))) = false ∧
      (rows.any (fun r => to_buy rows money r && decide (lot_price r = some 0)))
          = false ∧
      plan = rows.filterMap (row_plan_entry rows money) := by
  unfold search_shares_to_buy
  constructor
  · intro h
    split at h
    · exact absurd h (by simp)
    · split at h
      · exact absurd h (by simp)
      · rename_i h1 h2
        refine ⟨by simpa using h1, by simpa using h2, ?_⟩
        injection h with h
        exact h.symm
  · rintro ⟨h1, h2, h3⟩
    rw [h1, h2]
    simp [h3]

/-- A successful pass has no flagged row with a zero lot price (the floor
division would have raised). -/
lemma search_some_no_zero_lot (rows : List InfoRow) (money : ℚ)
    (plan : List (String × ℤ))
    (h : search_shares_to_buy rows money = some plan)
    (r : InfoRow) (hr : r ∈ rows) (ht : to_buy rows money r = true) :
    lot_price r ≠ some 0 := by
  have h2 := ((search_some_iff rows money plan).mp h).2.1
  rw [List.any_eq_false] at h2
  have := h2 r hr
  simp [ht] at this
  simpa using this

/-! ### Concrete scenario of the specification (section 8): one benchmark
row AAA at weight 10, lot size 10, balance 0, last price 5. -/

/-- Benchmark weight row of the end-to-end scenario. -/
def s_weight : WeightRow := ⟨"AAA", 10⟩

/-- Share-catalog row of the end-to-end scenario. -/
def s_share : Share := ⟨"AAA", "F1", 10⟩

/-- Position row of the end-to-end scenario (explicit zero balance). -/
def s_position : Position := ⟨"F1", 0⟩

/-- Price row of the end-to-end scenario. -/
def s_quote : PriceQuote := ⟨"F1", 5⟩

/-- The merged portfolio row of the end-to-end scenario. -/
def s_row : InfoRow := ⟨"AAA", 10, some s_share, 0, some 5⟩

/-- The scenario inputs merge to the single expected portfolio row. -/
lemma collect_eval :
    collect_information (some [s_weight]) [s_share] [s_position] [s_quote]
      = some [s_row] := by decide

/-- Scenario position value. -/
lemma pv_eval : portfolio_rubles_volume s_row = some 0 := by
  simp [portfolio_rubles_volume, s_row]

/-- Scenario portfolio base with 1000 of cash. -/
lemma base_eval : portfolio_base [s_row] 1000 = 1000 := by
  simp [portfolio_base, rubles_volume_sum, portfolio_rubles_volume, s_row]

/-- Scenario portfolio base with no cash. -/
lemma base0_eval : portfolio_base [s_row] 0 = 0 := by
  simp [portfolio_base, rubles_volume_sum, portfolio_rubles_volume, s_row]

/-- Scenario ideal portfolio value. -/
lemma ideal_eval : ideal_portfolio [s_row] 1000 s_row = 100 := by
  have hw : s_row.weight = 10 := rfl
  unfold ideal_portfolio
  rw [base_eval, hw]
  norm_num

/-- Scenario deficit. -/
lemma tbr_eval : to_buy_rubles [s_row] 1000 s_row = some 100 := by
  unfold to_buy_rubles
  rw [pv_eval]
  have h : (⌊ideal_portfolio [s_row] 1000 s_row⌋ : ℤ) = 100 := by
    rw [ideal_eval]
    norm_num
  simp [h]

/-- Scenario lot price. -/
lemma lp_eval : lot_price s_row = some 50 := by
  have : lot_price s_row = some (5 * ((10 : ℤ) : ℚ)) := rfl
  rw [this]
  norm_num

/-- Scenario to_buy flag. -/
lemma tb_eval : to_buy [s_row] 1000 s_row = true := by
  unfold to_buy
  rw [tbr_eval, lp_eval]
  simp [opt_pos, opt_le, opt_lt_cast]
  norm_num

/-- Scenario buy-plan entry: two lots of F1. -/
lemma entry_eval : row_plan_entry [s_row] 1000 s_row = some ("F1", 2) := by
  have hs : s_row.share = some s_share := rfl
  have hfigi : s_share.figi = "F1" := rfl
  have hf : (⌊((100 : ℤ) : ℚ) / 50⌋ : ℤ) = 2 := by
    have h2 : (((100 : ℤ) : ℚ)) / 50 = ((2 : ℤ) : ℚ) := by norm_num
    rw [h2, Int.floor_intCast]
  unfold row_plan_entry
  rw [if_pos tb_eval, hs, tbr_eval, lp_eval]
  show some (s_share.figi, ⌊((100 : ℤ) : ℚ) / 50⌋) = some ("F1", 2)
  rw [hfigi, hf]

/-- Scenario buy plan. -/
lemma scenario_plan : search_shares_to_buy [s_row] 1000 = some [("F1", 2)] := by
  rw [search_some_iff]
  have hb : decide (portfolio_base [s_row] 1000 = 0) = false := by
    rw [base_eval]
    simp only [decide_eq_false_iff_not]
    norm_num
  have hl : decide (lot_price s_row = some 0) = false := by
    rw [lp_eval]
    simp only [decide_eq_false_iff_not, Option.some.injEq]
    norm_num
  refine ⟨?_, ?_, ?_⟩
  · simp [pv_eval, hb]
  · simp [hl]
  · simp [entry_eval]

/-- Scenario full pass. -/
lemma scenario_pass :
    strategy_pass (some [s_weight]) [s_share] [s_position] [s_quote] 1000
      = some [("F1", 2)] := by
  unfold strategy_pass
  rw [collect_eval]
  simpa using scenario_plan

/-! ### Claim C1 -/

/-- Claim C1: in a successful computation pass, a portfolio row contributes
a buy-plan entry exactly when the three eligibility conditions of the
specification hold (positive deficit, known lot price within the available
cash, and deficit strictly above the lot price); its entry is in the plan;
and at the boundary where the deficit equals the lot price the row is not
eligible. -/
theorem buy_eligibility (rows : List InfoRow) (money : ℚ) (r : InfoRow)
    (plan : List (String × ℤ)) (hr : r ∈ rows)
    (hp : search_shares_to_buy rows money = some plan) :
    ((row_plan_entry rows money r).isSome ↔ spec_buy_eligible rows money r) ∧
    (∀ e, row_plan_entry rows money r = some e → e ∈ plan) ∧
    (∀ d lp, to_buy_rubles rows money r = some d → lot_price r = some lp →
      (d : ℚ) = lp → row_plan_entry rows money r = none) := by
  have hiff : (row_plan_entry rows money r).isSome = true ↔
      to_buy rows money r = true := by
    constructor
    · intro h
      unfold row_plan_entry at h
      by_cases ht : to_buy rows money r = true
      · exact ht
      · rw [if_neg ht] at h
        simp at h
    · intro ht
      obtain ⟨d, lp, hd, hl, _⟩ := (to_buy_iff rows money r).mp ht
      obtain ⟨p, s, _, hss, _⟩ := lot_price_some r lp hl
      unfold row_plan_entry
      rw [if_pos ht, hss, hd, hl]
      simp
  refine ⟨hiff.trans (to_buy_iff rows money r), ?_, ?_⟩
  · intro e he
    have hplan := ((search_some_iff rows money plan).mp hp).2.2
    rw [hplan]
    exact List.mem_filterMap.mpr ⟨r, hr, he⟩
  · intro d lp hd hl heq
    have ht : to_buy rows money r = false := by
      unfold to_buy opt_lt_cast
      rw [hd, hl]
      have hn : ¬ (lp < (d : ℚ)) := by
        rw [heq]
        exact lt_irrefl _
      simp [hn]
    simp [row_plan_entry, ht]

/-- Witness for buy_eligibility at the concrete scenario row. -/
theorem buy_eligibility_witness :
    ((row_plan_entry [s_row] 1000 s_row).isSome ↔
        spec_buy_eligible [s_row] 1000 s_row) ∧
    (∀ e, row_plan_entry [s_row] 1000 s_row = some e → e ∈ [("F1", (2 : ℤ))]) ∧
    (∀ d lp, to_buy_rubles [s_row] 1000 s_row = some d →
      lot_price s_row = some lp → (d : ℚ) = lp →
      row_plan_entry [s_row] 1000 s_row = none) :=
  buy_eligibility [s_row] 1000 s_row [("F1", 2)] (by simp) scenario_plan

/-! ### Claim C2 -/

/-- Claim C2: in a successful pass, every flagged row with known deficit d
and known non-negative lot price lp contributes the entry mapping its figi
to the floor of d / lp, that entry is in the plan, and the lot count is at
least 1; and on the concrete scenario (weight 10 percent, lot size 10,
balance 0, price 5, cash 1000) the full pass buys exactly 2 lots of F1. -/
theorem lots_to_buy_value (rows : List InfoRow) (money : ℚ)
    (plan : List (String × ℤ)) (r : InfoRow) (d : ℤ) (lp : ℚ)
    (hp : search_shares_to_buy rows money = some plan) (hr : r ∈ rows)
    (ht : to_buy rows money r = true)
    (hd : to_buy_rubles rows money r = some d) (hl : lot_price r = some lp)
    (hnn : 0 ≤ lp) :
    (∃ s, r.share = some s ∧
      row_plan_entry rows money r = some (s.figi, ⌊(d : ℚ) / lp⌋) ∧
      (s.figi, ⌊(d : ℚ) / lp⌋) ∈ plan) ∧
    1 ≤ ⌊(d : ℚ) / lp⌋ ∧
    strategy_pass (some [s_weight]) [s_share] [s_position] [s_quote] 1000
      = some [("F1", 2)] := by
  have hlz : lot_price r ≠ some 0 :=
    search_some_no_zero_lot rows money plan hp r hr ht
  have hlp0 : (0 : ℚ) < lp := by
    rcases lt_or_eq_of_le hnn with h | h
    · exact h
    · exact absurd (by rw [← h] at hl; exact hl) hlz
  obtain ⟨d', lp', hd', hl', hdpos, _, hlt⟩ := (to_buy_iff rows money r).mp ht
  rw [hd] at hd'
  rw [hl] at hl'
  injection hd' with hd'
  injection hl' with hl'
  subst hd'
  subst hl'
  obtain ⟨p, s, _, hss, _⟩ := lot_price_some r lp hl
  have hentry : row_plan_entry rows money r = some (s.figi, ⌊(d : ℚ) / lp⌋) := by
    unfold row_plan_entry
    rw [if_pos ht, hss, hd, hl]
  have hplan := ((search_some_iff rows money plan).mp hp).2.2
  refine ⟨⟨s, hss, hentry, ?_⟩, ?_, scenario_pass⟩
  · rw [hplan]
    exact List.mem_filterMap.mpr ⟨r, hr, hentry⟩
  · rw [Int.le_floor]
    push_cast
    rw [one_le_div hlp0]
    exact le_of_lt hlt

/-- Witness for lots_to_buy_value at the concrete scenario row. -/
theorem lots_to_buy_value_witness :
    (∃ s, s_row.share = some s ∧
      row_plan_entry [s_row] 1000 s_row = some (s.figi, ⌊((100 : ℤ) : ℚ) / 50⌋) ∧
      (s.figi, ⌊((100 : ℤ) : ℚ) / 50⌋) ∈ [("F1", (2 : ℤ))]) ∧
    1 ≤ ⌊((100 : ℤ) : ℚ) / 50⌋ ∧
    strategy_pass (some [s_weight]) [s_share] [s_position] [s_quote] 1000
      = some [("F1", 2)] :=
  lots_to_buy_value [s_row] 1000 [("F1", 2)] s_row 100 50 scenario_plan
    (by simp) tb_eval tbr_eval lp_eval (by norm_num)

/-! ### Claim C3 -/

/-- Claim C3, counterexample: at the zero-cash zero-position scenario the
portfolio base is zero, but the code does not define the weight-by-volume
column as zero: the division has a zero denominator and the pass fails
(Decimal division raises), so no buy plan is produced at all. -/
theorem zero_base_counterexample :
    portfolio_weight_volume [s_row] 0 s_row = none ∧
    portfolio_weight_volume [s_row] 0 s_row ≠ some 0 ∧
    search_shares_to_buy [s_row] 0 = none ∧
    search_shares_to_buy [s_row] 0 ≠ some [] := by
  have hw : portfolio_weight_volume [s_row] 0 s_row = none := by
    unfold portfolio_weight_volume
    rw [pv_eval, base0_eval]
    simp
  have hs : search_shares_to_buy [s_row] 0 = none := by
    unfold search_shares_to_buy
    have hc : ([s_row].any (fun r =>
        (portfolio_rubles_volume r).isNone
          || decide (portfolio_base [s_row] 0 = 0))) = true := by
      simp [base0_eval]
    rw [hc]
    simp
  exact ⟨hw, by rw [hw]; simp, hs, by rw [hs]; simp⟩

/-- Claim C3 as amended: when the portfolio base is zero, the ideal value is
zero for every row and the weight-by-volume division has a zero denominator,
so it is undefined rather than zero; on a nonempty table the whole pass
fails and no buy plan (hence no order) is produced. -/
theorem zero_portfolio_base (rows : List InfoRow) (money : ℚ)
    (h : portfolio_base rows money = 0) :
    (∀ r ∈ rows, ideal_portfolio rows money r = 0 ∧
      portfolio_weight_volume rows money r = none) ∧
    (rows ≠ [] → search_shares_to_buy rows money = none) := by
  constructor
  · intro r hr
    constructor
    · unfold ideal_portfolio
      rw [h]
      ring
    · unfold portfolio_weight_volume
      cases portfolio_rubles_volume r <;> simp [h]
  · intro hne
    unfold search_shares_to_buy
    have hc : (rows.any (fun r =>
        (portfolio_rubles_volume r).isNone
          || decide (portfolio_base rows money = 0))) = true := by
      cases rows with
      | nil => exact absurd rfl hne
      | cons a l => simp [h]
    rw [hc]
    simp

/-- Witness for zero_portfolio_base at the zero-cash scenario. -/
theorem zero_portfolio_base_witness :
    ideal_portfolio [s_row] 0 s_row = 0 ∧
    portfolio_weight_volume [s_row] 0 s_row = none ∧
    search_shares_to_buy [s_row] 0 = none :=
  ⟨((zero_portfolio_base [s_row] 0 base0_eval).1 s_row (by simp)).1,
    ((zero_portfolio_base [s_row] 0 base0_eval).1 s_row (by simp)).2,
    (zero_portfolio_base [s_row] 0 base0_eval).2 (by simp)⟩

/-! ### Claim C4 -/

/-- Claim C4: one pass of search_shares_to_buy only reads the money field of
the mutable object state and overwrites the other fields, so running the
pass twice on identical frozen inputs (the second pass starting from the
state the first pass left behind) yields the identical buy plan. -/
theorem engine_idempotent (inp : FrozenInputs) (st : StrategyState) :
    (search_shares_to_buy_pass inp (search_shares_to_buy_pass inp st).1).2
      = (search_shares_to_buy_pass inp st).2 := rfl

/-! ### Claim C8 -/

/-- Claim C8, counterexample: on the concrete scenario the plan maps F1 to
2 lots with lot size 10, and the driver posts quantity 2 — the raw lot
count — not 2 * 10 shares. -/
theorem order_quantity_counterexample :
    strategy_pass (some [s_weight]) [s_share] [s_position] [s_quote] 1000
      = some [("F1", 2)] ∧
    run_buy_orders [("F1", 2)] = [byu_figi "F1" 2] ∧
    (byu_figi "F1" 2).quantity = 2 ∧
    s_share.lot = 10 ∧
    (byu_figi "F1" 2).quantity ≠ 2 * s_share.lot := by
  refine ⟨scenario_pass, by simp [run_buy_orders], rfl, rfl, by decide⟩

/-- Claim C8 as amended: for every buy-plan entry the driver issues one
market buy order whose quantity is exactly the stored lot count
lots_to_buy; it never multiplies by the lot size. -/
theorem order_quantity_is_lot_count (plan : List (String × ℤ)) :
    (run_buy_orders plan).map (fun o => (o.figi, o.quantity)) = plan := by
  induction plan with
  | nil => rfl
  | cons a l ih =>
    simp only [run_buy_orders, List.map_cons] at ih ⊢
    rw [ih]
    rfl

/-! ### Claim C9 -/

/-- Claim C9, counterexample: with the share fetch degraded to an empty
table, the pass does not produce an empty or partial plan — it fails
(reading the figi column of an empty frame raises), producing no plan. -/
theorem empty_fetch_counterexample :
    strategy_pass (some [s_weight]) [] [s_position] [s_quote] 100 = none ∧
    strategy_pass (some [s_weight]) [] [s_position] [s_quote] 100 ≠ some [] := by
  constructor <;> simp [strategy_pass, collect_information]

/-- Claim C9 as amended: every collaborator-call failure degrades to an
empty result at the point of the fetch, but the downstream pipeline does
not tolerate empty fetch results: an empty share, position or price table,
or a failed benchmark fetch, makes the computation pass fail with an
exception (caught only by the operating loop), producing no buy plan. -/
theorem fetch_failures_and_empty_inputs :
    get_shares_info ApiResult.error = [] ∧
    get_positions_info ApiResult.error = [] ∧
    get_last_prices_info ApiResult.error = [] ∧
    trading_schedules ApiResult.error = [] ∧
    (∀ ws positions prices money,
      strategy_pass (some ws) [] positions prices money = none) ∧
    (∀ ws shares prices money,
      strategy_pass (some ws) shares [] prices money = none) ∧
    (∀ ws shares positions money,
      strategy_pass (some ws) shares positions [] money = none) ∧
    (∀ shares positions prices money,
      strategy_pass none shares positions prices money = none) := by
  refine ⟨rfl, rfl, rfl, rfl, ?_, ?_, ?_, ?_⟩ <;> intros <;>
    simp [strategy_pass, collect_information]

/-! ### Claim C10 -/

/-- Claim C10: when the schedule lookup fails or no returned day entry has
the current date, moex_today_trading_schedule returns (false, now, now);
the trading-branch guard of the run loop is then false and no buy order is
issued in that pass. -/
theorem no_today_schedule_no_orders (api : ApiResult ExchangeSchedule)
    (today now : ℤ)
    (h : ∀ d ∈ (trading_schedules api).flatMap ExchangeSchedule.days,
      d.date ≠ today) :
    moex_today_trading_schedule (trading_schedules api) today now
      = (false, now, now) ∧
    trading_branch_active
      (moex_today_trading_schedule (trading_schedules api) today now) now
      = false ∧
    ∀ plan, pass_orders api today now plan = [] := by
  have hf : ((trading_schedules api).flatMap ExchangeSchedule.days).find?
      (fun d => d.date == today) = none := by
    rw [List.find?_eq_none]
    intro d hd
    simp [h d hd]
  have hm : moex_today_trading_schedule (trading_schedules api) today now
      = (false, now, now) := by
    unfold moex_today_trading_schedule
    rw [hf]
  have hb : trading_branch_active (false, now, now) now = false := by
    simp [trading_branch_active]
  refine ⟨hm, by rw [hm]; exact hb, ?_⟩
  intro plan
  unfold pass_orders
  rw [hm, hb]
  simp

/-- Witness for no_today_schedule_no_orders on a failed schedule lookup. -/
theorem no_today_schedule_no_orders_witness :
    moex_today_trading_schedule (trading_schedules ApiResult.error) 0 5
      = (false, 5, 5) ∧
    trading_branch_active
      (moex_today_trading_schedule (trading_schedules ApiResult.error) 0 5) 5
      = false ∧
    ∀ plan, pass_orders ApiResult.error 0 5 plan = [] :=
  no_today_schedule_no_orders ApiResult.error 0 5 (by simp [trading_schedules])
